import Mathlib

/-!
Shallow embedding of the identity and authorization subsystem of the
Sanctum repository: the OIDC login initiator (`redirectToLogin`), the
callback processor (`handleCallback`), the role resolver (`extractRoles`),
the authorization gate (`requireOidcAuth`), the logout coordinator
(`handleLogout`), the token-exchange retry strategy
(`RetryOAuth2Strategy`), the duplicate-code guard of the passport entry
point (`processedCodes`), and the development bypass module.

JavaScript dynamic values that the embedded functions inspect are
modelled by `JVal` (string, boolean, array, or anything else); JS
truthiness of optional string parameters is modelled by `truthy`.
`[...new Set(xs)]` is modelled by `dedupFirst`, which keeps the first
occurrence of each value (structural value equality; the claims only
exercise it on strings and booleans, where JS SameValueZero agrees).
-/

namespace Sanctum

/-- An element of a JS array claim as far as the auth code inspects one:
a string, a boolean, or anything else (nested arrays and objects are all
`jother` — the code only ever asks such elements `typeof === 'string'`). -/
inductive JElem
  | jstr (s : String)
  | jbool (b : Bool)
  | jother
  deriving DecidableEq, Repr

/-- A JS claim value as far as the auth code inspects one: a string, a
boolean, an array of elements, or anything else. -/
inductive JVal
  | jstr (s : String)
  | jbool (b : Bool)
  | jarr (xs : List JElem)
  | jother
  deriving DecidableEq, Repr

/-- JS truthiness of an optional string (absent and empty are falsy). -/
def truthy : Option String → Bool
  | none => false
  | some s => s ≠ ""

/-- JS `a || b` on optional strings: first operand when truthy, else second. -/
def jsOr (a b : Option String) : Option String :=
  if truthy a then a else b

/-- `needle.isPrefixOf (hay.drop i)` for some i: substring occurrence test. -/
def hasInfix (needle : List Char) : List Char → Bool
  | [] => needle.isEmpty
  | c :: rest => needle.isPrefixOf (c :: rest) || hasInfix needle rest

/-- JS `s.toLowerCase().includes('admin')` (lowercasing char by char,
which agrees with `String.toLower`). -/
def containsAdminSub (s : String) : Bool :=
  hasInfix "admin".toList (s.toList.map Char.toLower)

/-- JS `[...new Set(xs)]`: deduplicate keeping the first occurrence. -/
def dedupFirst (xs : List JElem) : List JElem :=
  xs.foldl (fun acc x => if acc.contains x then acc else acc ++ [x]) []

/-- The OIDC userinfo claims object, restricted to the fields the auth
code consults. Absent fields are `none`. -/
structure UserInfo where
  sub : String := ""
  email : String := ""
  name : Option String := none
  preferred_username : Option String := none
  groups : Option JVal := none
  roles : Option JVal := none
  role : Option JVal := none
  is_admin : Option JVal := none
  admin : Option JVal := none
  authorities : Option JVal := none
  permissions : Option JVal := none
  deriving DecidableEq, Repr

/-- JS `field && Array.isArray(field)`: the element list when the claim is
an array (arrays, empty included, are truthy objects), else nothing. -/
def arrayElems : Option JVal → Option (List JElem)
  | some (JVal.jarr xs) => some xs
  | _ => none

/-- Elements contributed by an array-valued claim (empty when absent or
not an array). -/
def arrayElemsD (v : Option JVal) : List JElem :=
  (arrayElems v).getD []

/-- The contribution of a truthy single-string `role` claim
(`if (userInfo.role && typeof userInfo.role === 'string') roles.push(...)`). -/
def singleRoleContribution (v : Option JVal) : List JElem :=
  match v with
  | some (JVal.jstr r) => if r ≠ "" then [JElem.jstr r] else []
  | _ => []

/-- The admin-substring scan of `extractRoles`: over every array-valued
field among the given claims, push `admin` for each string element whose
lowercase form contains the substring `admin`. -/
def adminScanContribution (fields : List (Option JVal)) : List JElem :=
  (fields.filterMap arrayElems).flatMap fun roleField =>
    roleField.flatMap fun role =>
      match role with
      | JElem.jstr s => if containsAdminSub s then [JElem.jstr "admin"] else []
      | _ => []

/-- `extractRoles` from `src/unnamed/part_009` (identical in
`src/lib/auth.js`): baseline role `user`; push the elements of the
`groups` and `roles` claims when those are arrays; push a truthy
(non-empty) string `role` claim; push `admin` when `is_admin === true`
or `admin === true`; then,
for each of the array-valued claims among `roles`, `groups`,
`authorities`, `permissions`, push `admin` for every string element whose
lowercase form contains the substring `admin`; finally deduplicate. -/
def extractRoles (userInfo : UserInfo) : List JElem :=
  let roles : List JElem := [JElem.jstr "user"]
  let roles := roles ++ arrayElemsD userInfo.groups
  let roles := roles ++ arrayElemsD userInfo.roles
  let roles := roles ++ singleRoleContribution userInfo.role
  let roles := roles ++
    (if userInfo.is_admin = some (JVal.jbool true)
        ∨ userInfo.admin = some (JVal.jbool true)
     then [JElem.jstr "admin"] else [])
  let roles := roles ++
    adminScanContribution [userInfo.roles, userInfo.groups,
      userInfo.authorities, userInfo.permissions]
  dedupFirst roles

/-- The session-scoped authenticated principal built by the callback
processor (`user` object of `src/unnamed/part_009`). -/
structure Principal where
  id : String
  email : String
  name : Option String
  roles : List JElem
  accessToken : String
  refreshToken : Option String
  loginTime : String
  deriving DecidableEq, Repr

/-- The express session fields the auth code reads and writes.
`oidc_state` and `oidc_code_verifier` form the PendingAuthContext,
`oidc_user` the OIDC principal, `oidc_return_to` the captured return
path, and `user` the principal field of the development bypass module. -/
structure Session where
  oidc_state : Option String := none
  oidc_code_verifier : Option String := none
  oidc_user : Option Principal := none
  oidc_return_to : Option String := none
  user : Option Principal := none
  deriving DecidableEq, Repr

/-- The empty session left behind by `req.session.destroy`. -/
def emptySession : Session := {}

/-- Query parameters of the callback request. -/
structure CallbackQuery where
  code : Option String := none
  state : Option String := none
  deriving DecidableEq, Repr

/-- Token-endpoint JSON body on a 2xx response. -/
structure Tokens where
  access_token : String
  refresh_token : Option String := none
  deriving DecidableEq, Repr

/-- Outcome of a `fetch` as the callback code distinguishes it:
`response.ok`, or not (carrying the status). -/
inductive HttpResp (α : Type)
  | ok (body : α)
  | notOk (status : Nat)
  deriving DecidableEq, Repr

/-- HTTP-level outcome the callback handler produces. -/
inductive CallbackResult
  | http400 (msg : String)
  | redirect (path : String)
  deriving DecidableEq, Repr

/-- Observable side effects of the callback handler, in order. -/
inductive Effect
  | sessionDestroy
  | tokenExchange (code : String) (verifier : Option String)
  | userinfoFetch
  deriving DecidableEq, Repr

/-- The validation sequence of `handleCallback` from the state check
onward (`src/unnamed/part_009` lines 399–501): state check, code check,
token exchange, userinfo fetch, principal installation. -/
def handleCallbackChecked (q : CallbackQuery) (s : Session)
    (tokenResp : HttpResp Tokens) (uiResp : HttpResp UserInfo) (now : String) :
    Session × List Effect × CallbackResult :=
  -- `if (!state || state !== req.session.oidc_state)`
  if ¬ truthy q.state ∨ q.state ≠ s.oidc_state then
    (s, [], CallbackResult.http400 "Invalid state parameter")
  -- `if (!code)`
  else if ¬ truthy q.code then
    (s, [], CallbackResult.http400 "Missing authorization code")
  else
    let code := q.code.getD ""
    let exch := Effect.tokenExchange code s.oidc_code_verifier
    match tokenResp with
    | HttpResp.notOk _ =>
        (s, [exch], CallbackResult.http400 "Token exchange failed")
    | HttpResp.ok tokens =>
        match uiResp with
        | HttpResp.notOk _ =>
            (s, [exch, Effect.userinfoFetch],
             CallbackResult.http400 "UserInfo request failed")
        | HttpResp.ok userInfo =>
            let user : Principal :=
              { id := userInfo.sub
                email := userInfo.email
                name := jsOr userInfo.name userInfo.preferred_username
                roles := extractRoles userInfo
                accessToken := tokens.access_token
                refreshToken := tokens.refresh_token
                loginTime := now }
            ({ s with
                oidc_user := some user
                oidc_state := none
                oidc_code_verifier := none },
             [exch, Effect.userinfoFetch],
             CallbackResult.redirect "/")

/-- `handleCallback` from `src/unnamed/part_009` lines 368–502.

Inputs beyond the request and session: `recheck` is the value
`req.session.oidc_state` reads as after the 100 ms race-condition wait;
`tokenResp` and `uiResp` are the outcomes of the token-endpoint and
userinfo fetches (performed only if control reaches them — the effect
trace records which were performed); `now` is `new Date().toISOString()`.

Returns the resulting session, the ordered effect trace, and the HTTP
outcome. -/
def handleCallback (q : CallbackQuery) (s : Session) (recheck : Option String)
    (tokenResp : HttpResp Tokens) (uiResp : HttpResp UserInfo) (now : String) :
    Session × List Effect × CallbackResult :=
  -- race-condition branch: session state missing but a state was supplied
  if ¬ truthy s.oidc_state ∧ truthy q.state then
    if ¬ truthy recheck then
      (emptySession, [Effect.sessionDestroy], CallbackResult.redirect "/login")
    else
      handleCallbackChecked q { s with oidc_state := recheck } tokenResp uiResp now
  else
    handleCallbackChecked q s tokenResp uiResp now

/-- Outcome of the `requireOidcAuth` middleware. -/
inductive GateResult
  | proceed
  | redirectLogin
  | forbidden
  deriving DecidableEq, Repr

/-- `requireOidcAuth(requiredRole)` from `src/unnamed/part_009` lines
606–633: with no `oidc_user` in the session, capture the original URL and
restart login; otherwise, when a role is required, permit only if the
principal's roles include it or include `admin`, else respond 403.
Returns the session (with `oidc_return_to` captured on the
unauthenticated path) and the decision. -/
def requireOidcAuth (requiredRole : Option String) (s : Session)
    (originalUrl : String) : Session × GateResult :=
  match s.oidc_user with
  | none => ({ s with oidc_return_to := some originalUrl }, GateResult.redirectLogin)
  | some u =>
      match requiredRole with
      | none => (s, GateResult.proceed)
      | some r =>
          if u.roles.contains (JElem.jstr r) ∨ u.roles.contains (JElem.jstr "admin")
          then (s, GateResult.proceed)
          else (s, GateResult.forbidden)

/-- Observable events of the login initiator, in order. -/
inductive LoginEvent
  | sessionWrite (state verifier : String)
  | saveAck
  | httpError (code : Nat)
  | redirectOut (url : String)
  deriving DecidableEq, Repr

/-- The provider authorization URL built by `redirectToLogin`
(`src/unnamed/part_009` lines 330–341); query values are concatenated
without percent-encoding, which the claims never exercise. -/
def buildAuthUrl (authorizationEndpoint clientId redirectUri scope state
    codeChallenge : String) : String :=
  authorizationEndpoint ++ "?response_type=code&client_id=" ++ clientId ++
    "&redirect_uri=" ++ redirectUri ++ "&scope=" ++ scope ++
    "&state=" ++ state ++ "&code_challenge=" ++ codeChallenge ++
    "&code_challenge_method=S256"

/-- `redirectToLogin` from `src/unnamed/part_009` lines 311–365 as an
event trace: write the fresh state and PKCE verifier into the session,
then `req.session.save(cb)` — on save error respond 500 `Session error`
and never redirect; on acknowledgment redirect to the authorization URL
(after a 50 ms delay). `saveOk` is whether the session store acknowledged
the save without error. Returns the resulting session and the trace. -/
def redirectToLogin (s : Session) (state verifier authUrl : String)
    (saveOk : Bool) : Session × List LoginEvent :=
  let s' := { s with oidc_state := some state, oidc_code_verifier := some verifier }
  (s',
   LoginEvent.sessionWrite state verifier ::
     (if saveOk then [LoginEvent.saveAck, LoginEvent.redirectOut authUrl]
      else [LoginEvent.httpError 500]))

/-- Response of `handleLogout`. -/
inductive LogoutResponse
  | redirect (url : String)
  | jsonOk (logoutUrl : String)
  deriving DecidableEq, Repr

/-- The end-session URL built by `handleLogout`
(`src/unnamed/part_009` lines 572–576 and 586–590; both branches build
the same URL). -/
def logoutUrl (endSessionEndpoint postLogoutRedirectUri : String) : String :=
  endSessionEndpoint ++ "?post_logout_redirect_uri=" ++ postLogoutRedirectUri

/-- `handleLogout` from `src/unnamed/part_009` lines 554–603:
`req.session.destroy` clears the local session unconditionally (express
removes `req.session` before asking the store to delete), a store delete
error is only logged; then AJAX callers (`req.xhr` or an `Accept` header
including `application/json`) get a JSON body carrying the end-session
URL, browser callers get a redirect to it. Returns the resulting session,
the logged error if any, and the response. -/
def handleLogout (s : Session) (endSessionEndpoint postLogoutRedirectUri : String)
    (storeDeleteFails : Bool) (xhr acceptsJson : Bool) :
    Session × Option String × LogoutResponse :=
  let _ := s
  let loggedError := if storeDeleteFails then some "Error destroying session" else none
  let url := logoutUrl endSessionEndpoint postLogoutRedirectUri
  let isAjax := xhr || acceptsJson
  (emptySession, loggedError,
   if isAjax then LogoutResponse.jsonOk url else LogoutResponse.redirect url)

/-- What one token-endpoint attempt produced, as the retry strategy sees
it: the underlying oauth library passes `err` for every failure — a
transport error or ANY non-2xx status, 4xx included. -/
inductive AttemptOutcome
  | success (accessToken : String)
  | failure (status : Option Nat)
  deriving DecidableEq, Repr

/-- `maxRetries` of `RetryOAuth2Strategy` (`src/lib/auth.js` line 19). -/
def maxRetries : Nat := 3

/-- `baseDelay` of `RetryOAuth2Strategy` (`src/lib/auth.js` line 20). -/
def baseDelay : Nat := 1000

/-- The retry loop body of `RetryOAuth2Strategy._oauth2GetOAuthAccessToken`
(`src/lib/auth.js` lines 18–54), recursing on the remaining fuel
`maxRetries - attempt + 1`. Returns (number of the last attempt made,
delays slept between attempts in ms, token if any). -/
def tokenRetryFrom (responder : Nat → AttemptOutcome) :
    Nat → Nat → Nat × List Nat × Option String
  | _, 0 => (0, [], none)
  | attempt, fuel + 1 =>
      match responder attempt with
      | AttemptOutcome.success tok => (attempt, [], some tok)
      | AttemptOutcome.failure _ =>
          if attempt = maxRetries then (attempt, [], none)
          else
            let delay := baseDelay * 2 ^ (attempt - 1)
            let (a, ds, r) := tokenRetryFrom responder (attempt + 1) fuel
            (a, delay :: ds, r)

/-- `RetryOAuth2Strategy._oauth2GetOAuthAccessToken`: run the loop from
attempt 1; `responder n` is what the n-th attempt returns. -/
def getOAuthAccessToken (responder : Nat → AttemptOutcome) :
    Nat × List Nat × Option String :=
  tokenRetryFrom responder 1 maxRetries

/-- Outcome of the `processedCodes` duplicate-code guard. -/
inductive GuardOutcome
  | duplicate
  | proceed (processed : List String)
  deriving DecidableEq, Repr

/-- The duplicate-authorization-code guard of the passport `/callback`
route (`src/unnamed/part_000` lines 52–76): a truthy code already in
`processedCodes` is rejected with a redirect to
`/login?error=duplicate_request`; otherwise a truthy code is added to the
set (expiring after five minutes, not modelled) and processing proceeds. -/
def callbackCodeGuard (processed : List String) (code : Option String) :
    GuardOutcome :=
  match code with
  | some c =>
      if c ≠ "" ∧ processed.contains c then GuardOutcome.duplicate
      else if c ≠ "" then GuardOutcome.proceed (processed ++ [c])
      else GuardOutcome.proceed processed
  | none => GuardOutcome.proceed processed

/-- Which auth module the application wires in
(`src/unnamed/part_001` lines 11–13). -/
inductive AuthModule
  | bypass
  | oidc
  deriving DecidableEq, Repr

/-- `process.env.DEVELOPMENT_MODE === 'true' && process.env.BYPASS_AUTH
=== 'true'` selects the bypass module, anything else the OIDC module. -/
def selectAuthModule (developmentMode bypassAuth : Option String) : AuthModule :=
  if developmentMode = some "true" ∧ bypassAuth = some "true"
  then AuthModule.bypass else AuthModule.oidc

/-- The development test users of `src/lib/bypass-auth`
(`src/unnamed/part_008` lines 31–60); `now` stands for the
`new Date().toISOString()` captured at module load. -/
def testUsers (now : String) : String → Option Principal
  | "admin" => some
      { id := "dev-admin", email := "admin@test.local",
        name := some "Admin User", roles := [JElem.jstr "admin"],
        accessToken := "", refreshToken := none, loginTime := now }
  | "moderator" => some
      { id := "dev-moderator", email := "moderator@test.local",
        name := some "Moderator User", roles := [JElem.jstr "moderator"],
        accessToken := "", refreshToken := none, loginTime := now }
  | "contributor" => some
      { id := "dev-contributor", email := "contributor@test.local",
        name := some "Contributor User", roles := [JElem.jstr "contributor"],
        accessToken := "", refreshToken := none, loginTime := now }
  | "user" => some
      { id := "dev-user", email := "user@test.local",
        name := some "Regular User", roles := [JElem.jstr "user"],
        accessToken := "", refreshToken := none, loginTime := now }
  | _ => none

/-- Response of the bypass callback handler. -/
inductive BypassResult
  | invalidUser
  | sessionError
  | loggedIn (userId : String)
  deriving DecidableEq, Repr

/-- `handleCallback` of `src/lib/bypass-auth` (`src/unnamed/part_008`
lines 125–154): look `dev_user` (query or body) up in `testUsers`,
reject unknown names with 400; otherwise store the test user in
`req.session.user` and save — no identity-provider contact and no state,
code, or PKCE validation. Returns the session, the ordered effect trace
(always empty: the handler performs no provider fetch), and the result. -/
def bypassHandleCallback (devUser : Option String) (s : Session)
    (now : String) (saveOk : Bool) : Session × List Effect × BypassResult :=
  match devUser with
  | none => (s, [], BypassResult.invalidUser)
  | some name =>
      match testUsers now name with
      | none => (s, [], BypassResult.invalidUser)
      | some u =>
          let s' := { s with user := some u }
          if saveOk then (s', [], BypassResult.loggedIn u.id)
          else (s', [], BypassResult.sessionError)

/-! ## Spec-side definition for the RoleResolver refinement claim -/

/-- Modelled from the spec's words for RoleResolver, to be compared with
`extractRoles`: start from the baseline role `user`; union in every
string-array claim named groups, roles, authorities, or permissions;
union in a single-string role claim; add `admin` when any collected
claim value case-insensitively contains the substring `admin` or an
explicit boolean admin/is_admin claim is true; deduplicate. -/
def specRoleResolver (ui : UserInfo) : List JElem :=
  let collected : List JElem := [JElem.jstr "user"]
    ++ arrayElemsD ui.groups ++ arrayElemsD ui.roles
    ++ arrayElemsD ui.authorities ++ arrayElemsD ui.permissions
    ++ (match ui.role with
        | some (JVal.jstr r) => [JElem.jstr r]
        | _ => [])
  let adminFlag : Bool :=
    ui.is_admin = some (JVal.jbool true) ∨ ui.admin = some (JVal.jbool true) ∨
    collected.any (fun e =>
      match e with
      | JElem.jstr s => containsAdminSub s
      | _ => false)
  dedupFirst (collected ++ if adminFlag then [JElem.jstr "admin"] else [])

/-- The admin-promotion condition of `extractRoles`: an explicit boolean
`is_admin`/`admin` claim strictly equal to `true`, or some string element
of an array-valued `roles`/`groups`/`authorities`/`permissions` claim
whose lowercase form contains the substring `admin`. -/
def adminPromoted (ui : UserInfo) : Prop :=
  ui.is_admin = some (JVal.jbool true) ∨ ui.admin = some (JVal.jbool true) ∨
  ∃ v ∈ [ui.roles, ui.groups, ui.authorities, ui.permissions],
    ∃ s, JElem.jstr s ∈ arrayElemsD v ∧ containsAdminSub s = true

/-- A session holding a PendingAuthContext with state `good`. -/
def sPendGood : Session := { oidc_state := some "good", oidc_code_verifier := some "v" }

/-- A session holding a PendingAuthContext with state `st`. -/
def sPendSt : Session := { oidc_state := some "st", oidc_code_verifier := some "v" }

/-- `sPendSt` with the captured return path `/settings`. -/
def sPendSettings : Session :=
  { oidc_state := some "st", oidc_code_verifier := some "v",
    oidc_return_to := some "/settings" }

/-- A callback query presenting state `st` and a code. -/
def qSt : CallbackQuery := { code := some "c", state := some "st" }

/-- A claims object whose only claim is `authorities: ["editor"]`. -/
def uiAuthorities : UserInfo := { authorities := some (JVal.jarr [JElem.jstr "editor"]) }

/-- A principal whose roles are `user` and `editors`. -/
def editorsPrincipal : Principal :=
  { id := "u-editors", email := "", name := none,
    roles := [JElem.jstr "user", JElem.jstr "editors"],
    accessToken := "", refreshToken := none, loginTime := "" }

/-- A principal whose roles are `user` and `admin`. -/
def adminPrincipal : Principal :=
  { id := "u-admin", email := "", name := none,
    roles := [JElem.jstr "user", JElem.jstr "admin"],
    accessToken := "", refreshToken := none, loginTime := "" }

/-! ## Helper lemmas -/

/-- Membership through the first-occurrence deduplicating fold. -/
theorem mem_dedupFirst_fold (xs : List JElem) (acc : List JElem) (x : JElem) :
    x ∈ xs.foldl (fun acc x => if acc.contains x then acc else acc ++ [x]) acc ↔
      x ∈ acc ∨ x ∈ xs := by
  induction xs generalizing acc with
  | nil => simp
  | cons y ys ih =>
      simp only [List.foldl_cons]
      by_cases h : acc.contains y
      · rw [if_pos h, ih]
        have hy : y ∈ acc := by simpa using h
        constructor
        · rintro (hx | hx)
          · exact Or.inl hx
          · exact Or.inr (List.mem_cons_of_mem _ hx)
        · rintro (hx | hx)
          · exact Or.inl hx
          · rcases List.mem_cons.mp hx with rfl | hx
            · exact Or.inl hy
            · exact Or.inr hx
      · rw [if_neg h, ih]
        simp only [List.mem_append, List.mem_singleton, List.mem_cons]
        tauto

/-- `dedupFirst` preserves membership. -/
theorem mem_dedupFirst (xs : List JElem) (x : JElem) :
    x ∈ dedupFirst xs ↔ x ∈ xs := by
  unfold dedupFirst
  rw [mem_dedupFirst_fold]
  simp

/-- The deduplicating fold keeps the accumulator duplicate-free. -/
theorem nodup_dedupFirst_fold (xs : List JElem) (acc : List JElem)
    (hacc : acc.Nodup) :
    (xs.foldl (fun acc x => if acc.contains x then acc else acc ++ [x]) acc).Nodup := by
  induction xs generalizing acc with
  | nil => simpa using hacc
  | cons y ys ih =>
      simp only [List.foldl_cons]
      by_cases h : acc.contains y
      · rw [if_pos h]; exact ih acc hacc
      · rw [if_neg h]
        refine ih _ ?_
        have hy : y ∉ acc := by simpa using h
        simpa [List.nodup_append] using ⟨hacc, hy⟩

/-- `dedupFirst` returns a duplicate-free list. -/
theorem nodup_dedupFirst (xs : List JElem) : (dedupFirst xs).Nodup :=
  nodup_dedupFirst_fold xs [] List.nodup_nil

/-- Complete case characterization of the token-exchange retry loop by
the outcomes of the (at most) three attempts. -/
theorem getOAuthAccessToken_cases (responder : Nat → AttemptOutcome) :
    getOAuthAccessToken responder =
      match responder 1 with
      | AttemptOutcome.success t => (1, [], some t)
      | AttemptOutcome.failure _ =>
        match responder 2 with
        | AttemptOutcome.success t => (2, [1000], some t)
        | AttemptOutcome.failure _ =>
          match responder 3 with
          | AttemptOutcome.success t => (3, [1000, 2000], some t)
          | AttemptOutcome.failure _ => (3, [1000, 2000], none) := by
  unfold getOAuthAccessToken maxRetries
  rcases h1 : responder 1 with t1 | s1 <;>
    rcases h2 : responder 2 with t2 | s2 <;>
    rcases h3 : responder 3 with t3 | s3 <;>
    simp [tokenRetryFrom, h1, h2, h3, maxRetries, baseDelay]

/-- `extractRoles` with its let-chain written out. -/
theorem extractRoles_eq (ui : UserInfo) :
    extractRoles ui = dedupFirst
      ([JElem.jstr "user"] ++ arrayElemsD ui.groups ++ arrayElemsD ui.roles
        ++ singleRoleContribution ui.role
        ++ (if ui.is_admin = some (JVal.jbool true)
               ∨ ui.admin = some (JVal.jbool true)
            then [JElem.jstr "admin"] else [])
        ++ adminScanContribution [ui.roles, ui.groups, ui.authorities,
             ui.permissions]) := rfl

/-- Membership in the single-string `role` contribution. -/
theorem mem_singleRole (v : Option JVal) (x : JElem) :
    x ∈ singleRoleContribution v ↔
      ∃ r, v = some (JVal.jstr r) ∧ r ≠ "" ∧ x = JElem.jstr r := by
  unfold singleRoleContribution
  rcases v with _ | v
  · simp
  · rcases v with s | b | xs | _
    · by_cases hs : s = "" <;> simp [hs]
    · simp
    · simp
    · simp

/-- Membership in the conditional `admin` push. -/
theorem mem_ite_admin (P : Prop) [Decidable P] (x : JElem) :
    x ∈ (if P then [JElem.jstr "admin"] else []) ↔ x = JElem.jstr "admin" ∧ P := by
  by_cases h : P <;> simp [h]

/-- Membership in the admin-substring scan over the array-valued
role/group claims. -/
theorem mem_adminScan (fields : List (Option JVal)) (x : JElem) :
    x ∈ adminScanContribution fields ↔
      x = JElem.jstr "admin" ∧
        ∃ v ∈ fields, ∃ s, JElem.jstr s ∈ arrayElemsD v ∧
          containsAdminSub s = true := by
  unfold adminScanContribution
  simp only [List.mem_flatMap, List.mem_filterMap]
  constructor
  · rintro ⟨roleField, ⟨v, hv, he⟩, role, hrole, hx⟩
    rcases role with s | b | _
    · by_cases hs : containsAdminSub s
      · simp only [hs, if_true] at hx
        rcases List.mem_singleton.mp hx with rfl
        exact ⟨rfl, v, hv, s, by simp [arrayElemsD, he, hrole], hs⟩
      · simp [hs] at hx
    · simp at hx
    · simp at hx
  · rintro ⟨rfl, v, hv, s, hs, hadmin⟩
    rcases hmatch : arrayElems v with _ | xs
    · rw [arrayElemsD, hmatch] at hs
      cases hs
    · rw [arrayElemsD, hmatch] at hs
      exact ⟨xs, ⟨v, hv, hmatch⟩, JElem.jstr s, hs, by simp [hadmin]⟩

/-- Every run of the post-state-check validation sequence either fails
with a 400 leaving the session untouched, or succeeds: redirect with the
PendingAuthContext deleted, the return path untouched, and a principal
installed. -/
theorem handleCallbackChecked_cases (q : CallbackQuery) (s : Session)
    (tokenResp : HttpResp Tokens) (uiResp : HttpResp UserInfo) (now : String) :
    ((handleCallbackChecked q s tokenResp uiResp now).1 = s ∧
      ∃ msg, (handleCallbackChecked q s tokenResp uiResp now).2.2 =
        CallbackResult.http400 msg) ∨
    ((handleCallbackChecked q s tokenResp uiResp now).2.2 =
        CallbackResult.redirect "/" ∧
      (handleCallbackChecked q s tokenResp uiResp now).1.oidc_state = none ∧
      (handleCallbackChecked q s tokenResp uiResp now).1.oidc_code_verifier = none ∧
      (handleCallbackChecked q s tokenResp uiResp now).1.oidc_return_to =
        s.oidc_return_to ∧
      ∃ u, (handleCallbackChecked q s tokenResp uiResp now).1.oidc_user = some u) := by
  unfold handleCallbackChecked
  by_cases h1 : ¬ truthy q.state ∨ q.state ≠ s.oidc_state
  · rw [if_pos h1]
    exact Or.inl ⟨rfl, _, rfl⟩
  · rw [if_neg h1]
    by_cases h2 : ¬ truthy q.code
    · rw [if_pos h2]
      exact Or.inl ⟨rfl, _, rfl⟩
    · rw [if_neg h2]
      rcases tokenResp with t | st
      · rcases uiResp with ui | st2
        · exact Or.inr ⟨rfl, rfl, rfl, rfl, _, rfl⟩
        · exact Or.inl ⟨rfl, _, rfl⟩
      · exact Or.inl ⟨rfl, _, rfl⟩

/-- With a truthy stored state the race-condition branch is skipped and
`handleCallback` is the validation sequence on the unchanged session. -/
theorem handleCallback_of_pending (q : CallbackQuery) (s : Session)
    (recheck : Option String) (tokenResp : HttpResp Tokens)
    (uiResp : HttpResp UserInfo) (now : String)
    (cs : String) (hcs : s.oidc_state = some cs) (hne : cs ≠ "") :
    handleCallback q s recheck tokenResp uiResp now =
      handleCallbackChecked q s tokenResp uiResp now := by
  have htr : truthy s.oidc_state = true := by simp [truthy, hcs, hne]
  unfold handleCallback
  rw [if_neg]
  simp [htr]

/-- A validation-sequence run ending in the success redirect `/` has
deleted the PendingAuthContext. -/
theorem handleCallbackChecked_success_clears
    (q : CallbackQuery) (s : Session)
    (tokenResp : HttpResp Tokens) (uiResp : HttpResp UserInfo) (now : String)
    (hsucc : (handleCallbackChecked q s tokenResp uiResp now).2.2 =
      CallbackResult.redirect "/") :
    (handleCallbackChecked q s tokenResp uiResp now).1.oidc_state = none ∧
    (handleCallbackChecked q s tokenResp uiResp now).1.oidc_code_verifier = none := by
  rcases handleCallbackChecked_cases q s tokenResp uiResp now with
    ⟨_, m, hm⟩ | ⟨_, h2, h3, _, _⟩
  · rw [hm] at hsucc
    simp at hsucc
  · exact ⟨h2, h3⟩

/-- A callback that ends in the success redirect `/` has deleted the
PendingAuthContext from the session. -/
theorem handleCallback_success_clears_context
    (q : CallbackQuery) (s : Session) (recheck : Option String)
    (tokenResp : HttpResp Tokens) (uiResp : HttpResp UserInfo) (now : String)
    (hsucc : (handleCallback q s recheck tokenResp uiResp now).2.2 =
      CallbackResult.redirect "/") :
    (handleCallback q s recheck tokenResp uiResp now).1.oidc_state = none ∧
    (handleCallback q s recheck tokenResp uiResp now).1.oidc_code_verifier = none := by
  unfold handleCallback at hsucc ⊢
  split_ifs at hsucc ⊢ with hrace hre
  all_goals first
    | exact absurd hsucc (by decide)
    | exact handleCallbackChecked_success_clears _ _ _ _ _ hsucc

/-- A callback arriving at a session with no stored state, presenting a
truthy state, and whose recheck also finds nothing, is abandoned:
session destroyed, redirect to `/login`, no token exchange. -/
theorem handleCallback_no_context_aborts (q2 : CallbackQuery) (s : Session)
    (tr2 : HttpResp Tokens) (ur2 : HttpResp UserInfo) (now2 : String)
    (hns : s.oidc_state = none) (hq2 : truthy q2.state = true) :
    handleCallback q2 s none tr2 ur2 now2 =
      (emptySession, [Effect.sessionDestroy], CallbackResult.redirect "/login") := by
  unfold handleCallback
  rw [if_pos ⟨by simp [hns, truthy], hq2⟩, if_pos (by simp [truthy])]

/-! ## Claim theorems -/

/-- C2 (amended): with a PendingAuthContext present, a callback failing
in validation steps 2–6 (state mismatch, missing code, token-exchange
rejection, or userinfo failure) leaves the session exactly as it was —
no partially-authenticated principal is installed, but the
PendingAuthContext is NOT destroyed — and the response is a direct
HTTP 400 error, not a redirect back to the login entry point. -/
theorem callback_failure_no_partial_auth
    (q : CallbackQuery) (s : Session) (recheck : Option String)
    (tokenResp : HttpResp Tokens) (uiResp : HttpResp UserInfo) (now : String)
    (cs : String) (hcs : s.oidc_state = some cs) (hne : cs ≠ "")
    (hfail : (handleCallback q s recheck tokenResp uiResp now).2.2 ≠
      CallbackResult.redirect "/") :
    (handleCallback q s recheck tokenResp uiResp now).1 = s ∧
    ∃ msg, (handleCallback q s recheck tokenResp uiResp now).2.2 =
      CallbackResult.http400 msg := by
  rw [handleCallback_of_pending q s recheck tokenResp uiResp now cs hcs hne] at hfail ⊢
  rcases handleCallbackChecked_cases q s tokenResp uiResp now with ⟨h1, h2⟩ | ⟨h1, _⟩
  · exact ⟨h1, h2⟩
  · exact absurd h1 hfail

/-- Witness for C2 at a concrete failing callback. -/
theorem callback_failure_no_partial_auth_witness :
    (handleCallback { code := some "c", state := some "evil" } sPendGood none
        (HttpResp.ok { access_token := "at" }) (HttpResp.ok {}) "t").1 = sPendGood ∧
    ∃ msg, (handleCallback { code := some "c", state := some "evil" } sPendGood none
        (HttpResp.ok { access_token := "at" }) (HttpResp.ok {}) "t").2.2 =
      CallbackResult.http400 msg :=
  callback_failure_no_partial_auth _ _ _ _ _ _ "good" rfl (by decide) (by decide)

/-- C2 counterexample: at a concrete step-2 failure (state mismatch) the
PendingAuthContext is left in the session — not destroyed — and the
response is a direct HTTP 400, not a redirect to the login entry
point, contradicting the claim's failure semantics. -/
theorem callback_failure_keeps_context :
    (handleCallback { code := some "c", state := some "evil" } sPendGood none
        (HttpResp.notOk 500) (HttpResp.notOk 500) "t").2.2 =
      CallbackResult.http400 "Invalid state parameter" ∧
    (handleCallback { code := some "c", state := some "evil" } sPendGood none
        (HttpResp.notOk 500) (HttpResp.notOk 500) "t").1.oidc_state = some "good" ∧
    (handleCallback { code := some "c", state := some "evil" } sPendGood none
        (HttpResp.notOk 500) (HttpResp.notOk 500) "t").1.oidc_code_verifier = some "v" ∧
    (handleCallback { code := some "c", state := some "evil" } sPendGood none
        (HttpResp.notOk 500) (HttpResp.notOk 500) "t").2.2 ≠
      CallbackResult.redirect "/login" := by
  refine ⟨by decide, by decide, by decide, by decide⟩

/-- C3 (amended): the PendingAuthContext is deleted by a successful
callback — a later callback presenting a state (the old one included)
against that session finds no stored context and is abandoned with a
redirect to `/login`, the session destroyed and no token exchange
performed; and the passport entry point's `processedCodes` guard rejects
a reused authorization code regardless of the earlier outcome. (After a
FAILED callback the context is retained, so reusing its state is
processed again — see the counterexample.) -/
theorem callback_context_single_use
    (q : CallbackQuery) (s : Session) (recheck : Option String)
    (tokenResp : HttpResp Tokens) (uiResp : HttpResp UserInfo) (now : String)
    (hsucc : (handleCallback q s recheck tokenResp uiResp now).2.2 =
      CallbackResult.redirect "/")
    (q2 : CallbackQuery) (hq2 : truthy q2.state = true)
    (tr2 : HttpResp Tokens) (ur2 : HttpResp UserInfo) (now2 : String)
    (processed : List String) (c : String) (p' : List String) (hc : c ≠ "")
    (hp : callbackCodeGuard processed (some c) = GuardOutcome.proceed p') :
    (handleCallback q s recheck tokenResp uiResp now).1.oidc_state = none ∧
    (handleCallback q s recheck tokenResp uiResp now).1.oidc_code_verifier = none ∧
    handleCallback q2 (handleCallback q s recheck tokenResp uiResp now).1 none
        tr2 ur2 now2 =
      (emptySession, [Effect.sessionDestroy], CallbackResult.redirect "/login") ∧
    callbackCodeGuard p' (some c) = GuardOutcome.duplicate := by
  obtain ⟨h1, h2⟩ :=
    handleCallback_success_clears_context q s recheck tokenResp uiResp now hsucc
  refine ⟨h1, h2, ?_, ?_⟩
  · exact handleCallback_no_context_aborts q2 _ tr2 ur2 now2 h1 hq2
  · simp only [callbackCodeGuard] at hp ⊢
    by_cases hmem : processed.contains c
    · rw [if_pos ⟨hc, hmem⟩] at hp
      exact GuardOutcome.noConfusion hp
    · rw [if_neg (fun hcontra => hmem hcontra.2), if_pos hc] at hp
      injection hp with h
      subst h
      rw [if_pos ⟨hc, by simp [List.contains, List.elem_iff]⟩]

/-- Witness for C3: a concrete successful callback followed by a reuse
of its state, and a concrete guarded code reuse. -/
theorem callback_context_single_use_witness :
    (handleCallback qSt sPendSt none (HttpResp.ok { access_token := "at" })
        (HttpResp.ok {}) "t").1.oidc_state = none ∧
    (handleCallback qSt sPendSt none (HttpResp.ok { access_token := "at" })
        (HttpResp.ok {}) "t").1.oidc_code_verifier = none ∧
    handleCallback { code := none, state := some "st" }
        (handleCallback qSt sPendSt none (HttpResp.ok { access_token := "at" })
          (HttpResp.ok {}) "t").1 none (HttpResp.notOk 500) (HttpResp.notOk 500)
        "t2" =
      (emptySession, [Effect.sessionDestroy], CallbackResult.redirect "/login") ∧
    callbackCodeGuard ["c"] (some "c") = GuardOutcome.duplicate :=
  callback_context_single_use qSt sPendSt none (HttpResp.ok { access_token := "at" })
    (HttpResp.ok {}) "t" (by decide) { code := none, state := some "st" } (by decide)
    (HttpResp.notOk 500) (HttpResp.notOk 500) "t2" [] "c" ["c"] (by decide) (by decide)

/-- C3 counterexample: a callback that fails at the token exchange leaves
the PendingAuthContext in place, and a second callback reusing exactly
the state and code of that completed (failed) attempt is processed again
and succeeds — it is not rejected, and the context was not deleted by
the first (failed) callback. -/
theorem callback_reuse_after_failure_accepted :
    handleCallback qSt sPendSt none (HttpResp.notOk 500) (HttpResp.notOk 500) "t1" =
      (sPendSt, [Effect.tokenExchange "c" (some "v")],
        CallbackResult.http400 "Token exchange failed") ∧
    (handleCallback qSt sPendSt none (HttpResp.ok { access_token := "at" })
        (HttpResp.ok {}) "t2").2.2 = CallbackResult.redirect "/" ∧
    (handleCallback qSt sPendSt none (HttpResp.ok { access_token := "at" })
        (HttpResp.ok {}) "t2").1.oidc_user ≠ none := by
  refine ⟨by decide, by decide, by decide⟩

/-- C5 (amended): `extractRoles` returns the duplicate-free union of the
baseline role `user`, the elements of array-valued `groups` and `roles`
claims, a truthy single-string `role` claim, and `admin` exactly under
the promotion condition — boolean `is_admin`/`admin` strictly `true`, or
an admin-substring element in an array-valued `roles`/`groups`/
`authorities`/`permissions` claim. `authorities` and `permissions`
arrays are scanned for the admin substring but their elements are NOT
unioned into the role set. The three example claims objects resolve as
specified. -/
theorem extractRoles_characterized :
    (∀ (ui : UserInfo) (x : JElem), x ∈ extractRoles ui ↔
      (x = JElem.jstr "user"
        ∨ x ∈ arrayElemsD ui.groups
        ∨ x ∈ arrayElemsD ui.roles
        ∨ (∃ r, ui.role = some (JVal.jstr r) ∧ r ≠ "" ∧ x = JElem.jstr r)
        ∨ (x = JElem.jstr "admin" ∧ adminPromoted ui))) ∧
    (∀ ui : UserInfo, (extractRoles ui).Nodup) ∧
    JElem.jstr "admin" ∈ extractRoles { is_admin := some (JVal.jbool true) } ∧
    extractRoles { groups := some (JVal.jarr [JElem.jstr "editors"]) } =
      [JElem.jstr "user", JElem.jstr "editors"] ∧
    extractRoles ({} : UserInfo) = [JElem.jstr "user"] := by
  refine ⟨?_, ?_, by decide, by decide, by decide⟩
  · intro ui x
    rw [extractRoles_eq, mem_dedupFirst]
    simp only [List.mem_append, List.mem_singleton, mem_singleRole, mem_ite_admin,
      mem_adminScan, adminPromoted, or_assoc]
    constructor
    · rintro (h | h | h | h | ⟨rfl, hb⟩ | ⟨rfl, hs⟩)
      · exact Or.inl h
      · exact Or.inr (Or.inl h)
      · exact Or.inr (Or.inr (Or.inl h))
      · exact Or.inr (Or.inr (Or.inr (Or.inl h)))
      · rcases hb with hb | hb
        · exact Or.inr (Or.inr (Or.inr (Or.inr ⟨rfl, Or.inl hb⟩)))
        · exact Or.inr (Or.inr (Or.inr (Or.inr ⟨rfl, Or.inr (Or.inl hb)⟩)))
      · exact Or.inr (Or.inr (Or.inr (Or.inr ⟨rfl, Or.inr (Or.inr hs)⟩)))
    · rintro (h | h | h | h | ⟨rfl, hb | hb | hs⟩)
      · exact Or.inl h
      · exact Or.inr (Or.inl h)
      · exact Or.inr (Or.inr (Or.inl h))
      · exact Or.inr (Or.inr (Or.inr (Or.inl h)))
      · exact Or.inr (Or.inr (Or.inr (Or.inr (Or.inl ⟨rfl, Or.inl hb⟩))))
      · exact Or.inr (Or.inr (Or.inr (Or.inr (Or.inl ⟨rfl, Or.inr hb⟩))))
      · exact Or.inr (Or.inr (Or.inr (Or.inr (Or.inr ⟨rfl, hs⟩))))
  · intro ui
    rw [extractRoles_eq]
    exact nodup_dedupFirst _

/-- C5 counterexample: for the claims object `{authorities: ["editor"]}`
the claim's described algorithm unions `editor` into the role set, but
`extractRoles` does not — the code only scans `authorities` for the
admin substring and never unions its elements. -/
theorem extractRoles_authorities_not_unioned :
    JElem.jstr "editor" ∈ specRoleResolver uiAuthorities ∧
    JElem.jstr "editor" ∉ extractRoles uiAuthorities ∧
    extractRoles uiAuthorities = [JElem.jstr "user"] := by
  refine ⟨by decide, by decide, by decide⟩

/-- C7 (amended): with a PendingAuthContext present the callback never
reads the captured return path — the session's `oidc_return_to` is
untouched — and every redirect it issues goes to `/`, the default
landing location, even when a return path was captured at login
initiation. -/
theorem callback_redirects_to_root
    (q : CallbackQuery) (s : Session) (recheck : Option String)
    (tokenResp : HttpResp Tokens) (uiResp : HttpResp UserInfo) (now : String)
    (cs : String) (hcs : s.oidc_state = some cs) (hne : cs ≠ "")
    (p : String)
    (hred : (handleCallback q s recheck tokenResp uiResp now).2.2 =
      CallbackResult.redirect p) :
    (handleCallback q s recheck tokenResp uiResp now).1.oidc_return_to =
      s.oidc_return_to ∧
    p = "/" := by
  rw [handleCallback_of_pending q s recheck tokenResp uiResp now cs hcs hne] at hred ⊢
  rcases handleCallbackChecked_cases q s tokenResp uiResp now with
    ⟨_, m, hm⟩ | ⟨h1, _, _, hret, _⟩
  · rw [hm] at hred
    simp at hred
  · refine ⟨hret, ?_⟩
    rw [h1] at hred
    injection hred with h
    exact h.symm

/-- Witness for C7 at a concrete successful callback that had captured
the return path `/settings`. -/
theorem callback_redirects_to_root_witness :
    (handleCallback qSt sPendSettings none (HttpResp.ok { access_token := "at" })
        (HttpResp.ok {}) "t").1.oidc_return_to = sPendSettings.oidc_return_to ∧
    "/" = "/" :=
  callback_redirects_to_root qSt sPendSettings none
    (HttpResp.ok { access_token := "at" }) (HttpResp.ok {}) "t" "st" rfl
    (by decide) "/" (by decide)

/-- C7 counterexample: a login that captured the return path `/settings`
completes a fully successful callback yet the user is redirected to `/`,
not `/settings`; the captured path is still sitting unused in the
session. -/
theorem callback_ignores_settings_return_path :
    (handleCallback qSt sPendSettings none (HttpResp.ok { access_token := "at" })
        (HttpResp.ok {}) "t").2.2 = CallbackResult.redirect "/" ∧
    (handleCallback qSt sPendSettings none (HttpResp.ok { access_token := "at" })
        (HttpResp.ok {}) "t").2.2 ≠ CallbackResult.redirect "/settings" ∧
    (handleCallback qSt sPendSettings none (HttpResp.ok { access_token := "at" })
        (HttpResp.ok {}) "t").1.oidc_return_to = some "/settings" ∧
    (handleCallback qSt sPendSettings none (HttpResp.ok { access_token := "at" })
        (HttpResp.ok {}) "t").1.oidc_user ≠ none := by
  refine ⟨by decide, by decide, by decide, by decide⟩

/-- C8: the login initiator issues its redirect to the provider only
after the session store acknowledged the write of the PendingAuthContext
— in any trace containing a redirect event the save succeeded and the
acknowledgment strictly precedes the redirect — the state and verifier
are the ones written to the session, and on save failure the trace is
exactly a session write followed by a 500 error: no redirect is ever
issued. -/
theorem login_redirect_only_after_save (s : Session)
    (state verifier authUrl u : String) (saveOk : Bool)
    (hu : LoginEvent.redirectOut u ∈ (redirectToLogin s state verifier authUrl saveOk).2) :
    saveOk = true ∧
    LoginEvent.saveAck ∈ ((redirectToLogin s state verifier authUrl saveOk).2.takeWhile
      (fun e => e != LoginEvent.redirectOut u)) ∧
    (redirectToLogin s state verifier authUrl saveOk).1.oidc_state = some state ∧
    (redirectToLogin s state verifier authUrl saveOk).1.oidc_code_verifier =
      some verifier ∧
    (redirectToLogin s state verifier authUrl false).2 =
      [LoginEvent.sessionWrite state verifier, LoginEvent.httpError 500] := by
  cases saveOk with
  | false => simp [redirectToLogin] at hu
  | true =>
      have hu' : u = authUrl := by
        simpa [redirectToLogin] using hu
      refine ⟨rfl, ?_, rfl, rfl, rfl⟩
      rw [hu']
      have hstep : (redirectToLogin s state verifier authUrl true).2.takeWhile
          (fun e => e != LoginEvent.redirectOut authUrl) =
          LoginEvent.sessionWrite state verifier :: LoginEvent.saveAck ::
            List.takeWhile (fun e => e != LoginEvent.redirectOut authUrl)
              [LoginEvent.redirectOut authUrl] := rfl
      rw [hstep]
      simp

/-- Witness for C8 at a concrete successful save. -/
theorem login_redirect_only_after_save_witness :
    true = true ∧
    LoginEvent.saveAck ∈ ((redirectToLogin emptySession "st" "v" "url" true).2.takeWhile
      (fun e => e != LoginEvent.redirectOut "url")) ∧
    (redirectToLogin emptySession "st" "v" "url" true).1.oidc_state = some "st" ∧
    (redirectToLogin emptySession "st" "v" "url" true).1.oidc_code_verifier =
      some "v" ∧
    (redirectToLogin emptySession "st" "v" "url" false).2 =
      [LoginEvent.sessionWrite "st" "v", LoginEvent.httpError 500] :=
  login_redirect_only_after_save emptySession "st" "v" "url" "url" true (by decide)

/-- C9: logout clears the session's principal even when the session-store
delete fails — the failure is only logged — and always completes the
outcome: callers with a machine-readable accept type receive a JSON
result carrying the end-session URL, browser callers a redirect to the
same URL. -/
theorem logout_always_completes (s : Session) (ep pr : String)
    (storeDeleteFails xhr acceptsJson : Bool) :
    (handleLogout s ep pr storeDeleteFails xhr acceptsJson).1.oidc_user = none ∧
    (handleLogout s ep pr storeDeleteFails xhr acceptsJson).1.user = none ∧
    (storeDeleteFails = true →
      (handleLogout s ep pr storeDeleteFails xhr acceptsJson).2.1 =
        some "Error destroying session") ∧
    (acceptsJson = true →
      (handleLogout s ep pr storeDeleteFails xhr acceptsJson).2.2 =
        LogoutResponse.jsonOk (logoutUrl ep pr)) ∧
    ((xhr || acceptsJson) = false →
      (handleLogout s ep pr storeDeleteFails xhr acceptsJson).2.2 =
        LogoutResponse.redirect (logoutUrl ep pr)) := by
  refine ⟨rfl, rfl, fun h => by simp [handleLogout, h],
    fun h => by simp [handleLogout, h], fun h => by simp [handleLogout, h]⟩

/-- Witness for C9: a throwing store delete together with a
machine-readable caller. -/
theorem logout_always_completes_witness :
    (handleLogout emptySession "E" "P" true false true).1.oidc_user = none ∧
    (handleLogout emptySession "E" "P" true false true).2.1 =
      some "Error destroying session" ∧
    (handleLogout emptySession "E" "P" true false true).2.2 =
      LogoutResponse.jsonOk (logoutUrl "E" "P") :=
  ⟨(logout_always_completes emptySession "E" "P" true false true).1,
   (logout_always_completes emptySession "E" "P" true false true).2.2.1 rfl,
   (logout_always_completes emptySession "E" "P" true false true).2.2.2.1 rfl⟩

/-- C1: with a PendingAuthContext stored in the session, a callback whose
`state` query parameter is absent or differs byte-for-byte from the
stored `csrf_state` is rejected with HTTP 400 `Invalid state parameter`
before any use of `code`: the effect trace is empty (no token exchange,
no userinfo fetch), the session is unchanged, and this holds whatever
`code` and the provider's responses would have been. -/
theorem callback_rejects_bad_state
    (q : CallbackQuery) (s : Session) (recheck : Option String)
    (tokenResp : HttpResp Tokens) (uiResp : HttpResp UserInfo) (now : String)
    (cs : String) (hcs : s.oidc_state = some cs) (hne : cs ≠ "")
    (hbad : q.state ≠ some cs) :
    handleCallback q s recheck tokenResp uiResp now =
      (s, [], CallbackResult.http400 "Invalid state parameter") := by
  rw [handleCallback_of_pending q s recheck tokenResp uiResp now cs hcs hne]
  unfold handleCallbackChecked
  rw [if_pos (Or.inr (by rw [hcs]; exact hbad))]

/-- Witness for C1 at a concrete mismatching callback (the code and the
provider responses are present and valid, and still rejected). -/
theorem callback_rejects_bad_state_witness :
    handleCallback { code := some "c", state := some "evil" } sPendGood none
        (HttpResp.ok { access_token := "at" }) (HttpResp.ok {}) "t" =
      (sPendGood, [], CallbackResult.http400 "Invalid state parameter") :=
  callback_rejects_bad_state _ _ _ _ _ _ "good" rfl (by decide) (by decide)

/-- C4 (amended): the retry strategy makes at most 3 attempts with
strictly increasing delays; when every attempt fails — whatever the
status, 4xx included — it makes exactly 3 attempts, sleeping 1000 ms and
2000 ms between them, before surfacing failure; a first-attempt success
makes exactly one attempt. -/
theorem tokenExchange_retry_policy (responder : Nat → AttemptOutcome) :
    (getOAuthAccessToken responder).1 ≤ maxRetries ∧
    List.Chain' (· < ·) (getOAuthAccessToken responder).2.1 ∧
    ((∀ n, 1 ≤ n → n ≤ maxRetries →
        ∃ st, responder n = AttemptOutcome.failure st) →
      getOAuthAccessToken responder = (3, [1000, 2000], none)) ∧
    (∀ t, responder 1 = AttemptOutcome.success t →
      getOAuthAccessToken responder = (1, [], some t)) := by
  refine ⟨?_, ?_, ?_, ?_⟩
  · rw [getOAuthAccessToken_cases responder]
    rcases h1 : responder 1 with t1 | s1 <;>
      rcases h2 : responder 2 with t2 | s2 <;>
      rcases h3 : responder 3 with t3 | s3 <;>
      simp [maxRetries]
  · rw [getOAuthAccessToken_cases responder]
    rcases h1 : responder 1 with t1 | s1 <;>
      rcases h2 : responder 2 with t2 | s2 <;>
      rcases h3 : responder 3 with t3 | s3 <;>
      simp
  · intro hall
    rcases hall 1 le_rfl (by decide) with ⟨st1, h1⟩
    rcases hall 2 (by decide) (by decide) with ⟨st2, h2⟩
    rcases hall 3 (by decide) (by decide) with ⟨st3, h3⟩
    rw [getOAuthAccessToken_cases responder, h1, h2, h3]
  · intro t ht
    rw [getOAuthAccessToken_cases responder, ht]

/-- Witness for C4: the all-attempts-fail hypothesis discharged with
constant 500 responses. -/
theorem tokenExchange_retry_policy_witness :
    getOAuthAccessToken (fun _ => AttemptOutcome.failure (some 500)) =
      (3, [1000, 2000], none) :=
  (tokenExchange_retry_policy (fun _ => AttemptOutcome.failure (some 500))).2.2.1
    (fun _ _ _ => ⟨some 500, rfl⟩)

/-- C4 counterexample: with the provider always answering HTTP 400, the
strategy makes three attempts, not one, and the delays slept are 1000 ms
and 2000 ms — a 4000 ms delay never occurs. -/
theorem tokenExchange_400_is_retried :
    getOAuthAccessToken (fun _ => AttemptOutcome.failure (some 400)) =
      (3, [1000, 2000], none) ∧
    (getOAuthAccessToken (fun _ => AttemptOutcome.failure (some 400))).1 ≠ 1 ∧
    4000 ∉ (getOAuthAccessToken (fun _ => AttemptOutcome.failure (some 400))).2.1 := by
  decide

/-- C6: for an authenticated principal, `requireOidcAuth(r)` proceeds iff
the principal's roles contain `r` or contain `admin`, and responds 403
otherwise; in particular requiring `admin` denies roles
`{user, editors}` and permits roles `{user, admin}`. -/
theorem gate_permits_iff :
    (∀ (u : Principal) (r url : String) (s : Session), s.oidc_user = some u →
      (((requireOidcAuth (some r) s url).2 = GateResult.proceed) ↔
        (JElem.jstr r ∈ u.roles ∨ JElem.jstr "admin" ∈ u.roles)) ∧
      (((requireOidcAuth (some r) s url).2 = GateResult.forbidden) ↔
        ¬ (JElem.jstr r ∈ u.roles ∨ JElem.jstr "admin" ∈ u.roles))) ∧
    (requireOidcAuth (some "admin") { oidc_user := some editorsPrincipal } "/x").2 =
      GateResult.forbidden ∧
    (requireOidcAuth (some "admin") { oidc_user := some adminPrincipal } "/x").2 =
      GateResult.proceed := by
  refine ⟨?_, by decide, by decide⟩
  intro u r url s hs
  simp only [requireOidcAuth, hs]
  have hmem : (u.roles.contains (JElem.jstr r) = true ∨
      u.roles.contains (JElem.jstr "admin") = true) ↔
      (JElem.jstr r ∈ u.roles ∨ JElem.jstr "admin" ∈ u.roles) := by
    simp [List.contains, List.elem_iff]
  by_cases h : JElem.jstr r ∈ u.roles ∨ JElem.jstr "admin" ∈ u.roles
  · rw [if_pos (hmem.mpr h)]
    simp [h]
  · rw [if_neg (fun hc => h (hmem.mp hc))]
    simp [h]

/-- Witness for C6 at a concrete session and role. -/
theorem gate_permits_iff_witness :
    ((requireOidcAuth (some "editors") { oidc_user := some editorsPrincipal } "/x").2 =
        GateResult.proceed ↔
      (JElem.jstr "editors" ∈ editorsPrincipal.roles ∨
       JElem.jstr "admin" ∈ editorsPrincipal.roles)) ∧
    ((requireOidcAuth (some "editors") { oidc_user := some editorsPrincipal } "/x").2 =
        GateResult.forbidden ↔
      ¬ (JElem.jstr "editors" ∈ editorsPrincipal.roles ∨
         JElem.jstr "admin" ∈ editorsPrincipal.roles)) :=
  gate_permits_iff.1 editorsPrincipal "editors" "/x" _ rfl

/-- C10: with DEVELOPMENT_MODE and BYPASS_AUTH both 'true' the bypass
module is wired in; its callback with `dev_user=admin` installs the
predefined admin test principal — whose role set contains `admin` — into
the session with no identity-provider contact (empty effect trace) and
no state, code, or PKCE validation. -/
theorem dev_bypass_admin_login :
    selectAuthModule (some "true") (some "true") = AuthModule.bypass ∧
    (bypassHandleCallback (some "admin") emptySession "t0" true).2.1 = [] ∧
    (bypassHandleCallback (some "admin") emptySession "t0" true).2.2 =
      BypassResult.loggedIn "dev-admin" ∧
    ∃ u, (bypassHandleCallback (some "admin") emptySession "t0" true).1.user = some u ∧
      JElem.jstr "admin" ∈ u.roles := by
  refine ⟨by decide, by decide, by decide, _, rfl, by decide⟩

end Sanctum
